import Mathlib

/-!
# Verification of the sloggcp log-record compiler

Shallow embedding of the `sloggcp` Go package: the `ReplaceAttr` /
`replaceLevelAttr` key-and-severity translation (replace.go), and the
error-extraction subsystem `assertErrorValue`, `NewReportLocation` and
`checkAndSetErrorReport` (error source file).  Go's dynamic `any` values are
modelled by a closed inductive `AnyValue` whose `obj` constructor carries the
capability record relevant to the error extractor (whether the value
implements `error`, `StackTraceError`, `ReportLocationError`, and
`slog.LogValuer`).  Go maps `map[string]any` are modelled as functions
`String → Option DocValue`.  External collaborators (the runtime stack
capture `runtime.Caller` and the output encoder) are passed as explicit
function parameters.
-/

namespace Sloggcp

/-! ## Key and severity constants (replace.go) -/

/-- Go slog.TimeKey. -/
def slogTimeKey : String := "time"
/-- Go slog.LevelKey. -/
def slogLevelKey : String := "level"
/-- Go slog.MessageKey. -/
def slogMessageKey : String := "msg"
/-- Go slog.SourceKey. -/
def slogSourceKey : String := "source"

/-- Key constant SeverityKey: the slog.LevelKey replacement. -/
def SeverityKey : String := "severity"
/-- Key constant MessageKey: the slog.MessageKey replacement. -/
def MessageKey : String := "message"
/-- Key constant SourceLocationKey: the slog.SourceKey replacement. -/
def SourceLocationKey : String := "logging.googleapis.com/sourceLocation"
/-- Key constant TimKey: equal to slog.TimeKey, no replacement needed. -/
def TimKey : String := slogTimeKey

def DebugSeverity : String := "DEBUG"
def InfoSeverity : String := "INFO"
def WarningSeverity : String := "WARNING"
def ErrorSeverity : String := "ERROR"
def DefaultSeverity : String := "DEFAULT"

/-- Go slog.LevelDebug = -4. -/
def LevelDebug : Int := -4
/-- Go slog.LevelInfo = 0. -/
def LevelInfo : Int := 0
/-- Go slog.LevelWarn = 4. -/
def LevelWarn : Int := 4
/-- Go slog.LevelError = 8. -/
def LevelError : Int := 8

/-! ## Error-report constants (error source file) -/

/-- Key by which errors are retrieved from slog attributes. -/
def ErrorKey : String := "error"

def ErrorReportTypeKey : String := "@type"
def ErrorReportTypeValue : String :=
  "type.googleapis.com/google.devtools.clouderrorreporting.v1beta1.ReportedErrorEvent"
def ReportLocationKey : String := "reportLocation"
def FilePathKey : String := "filePath"
def LineNumberKey : String := "lineNumber"
def FunctionNameKey : String := "functionName"

/-! ## Data model -/

/-- The ReportLocation struct: filePath, lineNumber, functionName. -/
structure ReportLocation where
  filePath : String
  lineNumber : Int
  functionName : String
deriving DecidableEq, Repr

/-- A structured slog value, as produced by a `slog.LogValuer`
(`slog.Value` of string/int64/bool/group kind; the kinds the tests use). -/
inductive SlogValue where
  | str (s : String)
  | int (n : Int)
  | bool (b : Bool)
  | group (fields : List (String × SlogValue))
deriving Repr

/-- Capability record of a non-string Go object, as queried by the type
switches in `assertErrorValue` and `checkAndSetErrorReport`:
`errMsg = some e` iff the value implements `error` with `Error() = e`;
`stackTrace = some st` iff the value has a `StackTrace()` method returning
the bytes of `st`; `reportLocation = some l` iff the value has a
`ReportLocation()` method returning the (possibly nil) pointer `l`;
`logValue = some v` iff the value implements `slog.LogValuer` with
`LogValue() = v`.  `typeName` is what `%T` formats the value as. -/
structure Capabilities where
  typeName : String
  errMsg : Option String
  stackTrace : Option String
  reportLocation : Option (Option ReportLocation)
  logValue : Option SlogValue
deriving Repr

/-- A Go `any` value as carried by a `slog.Attr`: a plain string, a
`slog.Level`, or an arbitrary object described by its capability record.
(A Go `string` and a `slog.Level` implement none of the interfaces the
error extractor queries.) -/
inductive AnyValue where
  | str (s : String)
  | level (l : Int)
  | obj (c : Capabilities)
deriving Repr

/-- A `slog.Attr`: key plus value (`a.Value.Any()` is the identity in this
model). -/
structure Attr where
  key : String
  value : AnyValue
deriving Repr

/-- The value the Go type switch of `assertErrorValue` formats with `%T`. -/
def AnyValue.typeName : AnyValue → String
  | .str _ => "string"
  | .level _ => "slog.Level"
  | .obj c => c.typeName

/-- Go slog.String(key, value). -/
def slogString (key value : String) : Attr := ⟨key, .str value⟩

/-! ## replace.go -/

def severityDebug : Attr := slogString SeverityKey DebugSeverity
def severityInfo : Attr := slogString SeverityKey InfoSeverity
def severityWarn : Attr := slogString SeverityKey WarningSeverity
def severityError : Attr := slogString SeverityKey ErrorSeverity
def severityDefault : Attr := slogString SeverityKey DefaultSeverity

/-- Function replaceLevelAttr: asserts the attribute value to `slog.Level`
(`severityDefault` if the assertion fails) and switches on the level. -/
def replaceLevelAttr (a : Attr) : Attr :=
  match a.value with
  | .level logLevel =>
    if logLevel = LevelDebug then severityDebug
    else if logLevel = LevelInfo then severityInfo
    else if logLevel = LevelWarn then severityWarn
    else if logLevel = LevelError then severityError
    else severityDefault
  | _ => severityDefault

/-- Function ReplaceAttr replaces slog default attributes with GCP compatible
ones; only handles top-level attributes (empty group list). -/
def ReplaceAttr (groups : List String) (a : Attr) : Attr :=
  if groups.length > 0 then a
  else if a.key = slogLevelKey then replaceLevelAttr a
  else if a.key = slogSourceKey then { a with key := SourceLocationKey }
  else if a.key = slogMessageKey then { a with key := MessageKey }
  else a

/-! ## Error extraction (error source file) -/

/-- One frame as returned by the external stack-capture collaborator
`runtime.Caller`: `none` models `ok = false`; `funcName = none` models
`runtime.FuncForPC` returning nil. -/
structure CallerFrame where
  file : String
  line : Int
  funcName : Option String
deriving DecidableEq, Repr

/-- The external stack-capture collaborator: frame at a given depth. -/
def Caller := Nat → Option CallerFrame

/-- Function NewReportLocation based on the current call stack: calls
`runtime.Caller(skip + 1)`, returns nil when the frame or its function is
unavailable, else the frame's file, line and function name. -/
def NewReportLocation (caller : Caller) (skip : Nat) : Option ReportLocation :=
  match caller (skip + 1) with
  | none => none
  | some f =>
    match f.funcName with
    | none => none
    | some fn => some ⟨f.file, f.line, fn⟩

/-- The diagnostic string produced with fmt.Sprintf in the default branch
of `assertErrorValue`, naming the unhandled type (the %T verb). -/
def unhandledTypeMsg (tn : String) : String :=
  "!!! can\x27t handle error report for type " ++ tn ++ " !!!"

/-- Function assertErrorValue: type switch over the value, in source order:
`stackAndReport` (both `StackTraceError` and `ReportLocationError`),
`StackTraceError`, `ReportLocationError`, `error`, `string`, default.
Each of the three interface cases requires the value to implement `error`,
so an object without an `Error()` method falls to the default branch.  The
default branch captures a fresh location via `NewReportLocation(0)`. -/
def assertErrorValue (caller : Caller) (value : AnyValue) :
    String × Option ReportLocation :=
  match value with
  | .obj c =>
    match c.errMsg, c.stackTrace, c.reportLocation with
    | some _, some st, some rl => (st, rl)
    | some _, some st, none => (st, none)
    | some e, none, some rl => (e, rl)
    | some e, none, none => (e, none)
    | none, _, _ =>
      (unhandledTypeMsg value.typeName, NewReportLocation caller 0)
  | .str s => (s, none)
  | .level _ =>
    (unhandledTypeMsg value.typeName, NewReportLocation caller 0)

/-- The fully expanded document representation of a structured value. -/
inductive ExpandedValue where
  | str (s : String)
  | int (n : Int)
  | bool (b : Bool)
  | obj (fields : List (String × ExpandedValue))
deriving Repr

mutual

/-- Modelled from the spec: `extractValue` of the handler source file (the
handler implementation is not under src, only its tests): it recursively
expands a structured slog value into the nested document representation
("store that structured expansion", §4.3). -/
def extractValue : SlogValue → ExpandedValue
  | .str s => .str s
  | .int n => .int n
  | .bool b => .bool b
  | .group fs => .obj (extractFields fs)

/-- Modelled from the spec: field-list part of `extractValue`. -/
def extractFields : List (String × SlogValue) → List (String × ExpandedValue)
  | [] => []
  | (k, v) :: rest => (k, extractValue v) :: extractFields rest

end

/-- A value stored in the resolved document (`map[string]any`): a string, a
report location pointer, a Go value stored verbatim, or the expansion of a
structured value. -/
inductive DocValue where
  | str (s : String)
  | loc (l : ReportLocation)
  | goVal (v : AnyValue)
  | expanded (e : ExpandedValue)
deriving Repr

/-- The Go `map[string]any` output document, as a lookup function. -/
def DocMap := String → Option DocValue

/-- Assignment out[k] = v on a Go map. -/
def mapSet (m : DocMap) (k : String) (v : DocValue) : DocMap :=
  fun q => if q = k then some v else m q

/-- Function checkAndSetErrorReport: when the attribute key is the error key,
derives message and location via `assertErrorValue`, writes the type
marker, the message, the error value, the report location when non-nil,
and finally replaces the stored error value by its structured expansion
when the value is a `slog.LogValuer`, else by its `Error()` text when it
is an `error`; returns whether it triggered. -/
def checkAndSetErrorReport (caller : Caller) (a : Attr) (out : DocMap) :
    Bool × DocMap :=
  if a.key ≠ ErrorKey then (false, out)
  else
    let value := a.value
    let res := assertErrorValue caller value
    let out := mapSet out ErrorReportTypeKey (.str ErrorReportTypeValue)
    let out := mapSet out MessageKey (.str res.1)
    let out := mapSet out ErrorKey (.goVal value)
    let out :=
      match res.2 with
      | some rl => mapSet out ReportLocationKey (.loc rl)
      | none => out
    let out :=
      match value with
      | .obj c =>
        match c.logValue with
        | some lv => mapSet out ErrorKey (.expanded (extractValue lv))
        | none =>
          match c.errMsg with
          | some e => mapSet out ErrorKey (.str e)
          | none => out
      | _ => out
    (true, out)

/-! ## Record compiler level gate (handler source file, not under src) -/

/-- Modelled from the spec: the result of `compile` — either `skip` (no
document) or a completed document. -/
inductive CompileResult where
  | skip
  | doc (d : DocMap)

/-- Modelled from the spec: the level gate of the record compiler
(`compile`, §4.2 step 1; the handler implementation is not under src, only
its tests): if the level is below the configured minimum (INFO when
unspecified), return skip; otherwise the built document is returned. -/
def compile (minLevel : Option Int) (level : Int) (build : DocMap) :
    CompileResult :=
  if level < minLevel.getD LevelInfo then .skip else .doc build

/-- Modelled from the spec: the bytes the encoder/sink receives for a
compile result — nothing at all on skip, the encoding of the document
otherwise. -/
def sinkBytes (encode : DocMap → List Nat) : CompileResult → List Nat
  | .skip => []
  | .doc d => encode d

/-! ## Concrete objects used by witnesses -/

/-- The empty output document. -/
def emptyDoc : DocMap := fun _ => none

/-- A sample stack-capture collaborator used in witnesses. -/
def sampleCaller : Caller := fun _ =>
  some ⟨"errorreport.go", 42, some "sloggcp.assertErrorValue"⟩

/-! ## Theorems -/

/-- C3: the level-to-severity translation is a total function that never
fails: DEBUG maps to "DEBUG", INFO to "INFO", WARN to "WARNING", ERROR to
"ERROR", and any other value — custom level numbers as well as level
attributes whose payload is not a level at all — maps to "DEFAULT"; the
result is always a severity-keyed string attribute carrying one of the
five severities. -/
theorem replaceLevelAttr_severity_table (a : Attr) :
    (a.value = .level LevelDebug → replaceLevelAttr a = severityDebug) ∧
    (a.value = .level LevelInfo → replaceLevelAttr a = severityInfo) ∧
    (a.value = .level LevelWarn → replaceLevelAttr a = severityWarn) ∧
    (a.value = .level LevelError → replaceLevelAttr a = severityError) ∧
    (∀ l : Int, a.value = .level l → l ≠ LevelDebug → l ≠ LevelInfo →
      l ≠ LevelWarn → l ≠ LevelError → replaceLevelAttr a = severityDefault) ∧
    ((∀ l : Int, a.value ≠ .level l) → replaceLevelAttr a = severityDefault) ∧
    (∃ s, replaceLevelAttr a = slogString SeverityKey s ∧
      (s = DebugSeverity ∨ s = InfoSeverity ∨ s = WarningSeverity ∨
        s = ErrorSeverity ∨ s = DefaultSeverity)) := by
  obtain ⟨k, v⟩ := a
  refine ⟨?_, ?_, ?_, ?_, ?_, ?_, ?_⟩
  · rintro rfl; simp [replaceLevelAttr]
  · rintro rfl; simp [replaceLevelAttr, LevelInfo, LevelDebug]
  · rintro rfl; simp [replaceLevelAttr, LevelWarn, LevelDebug, LevelInfo]
  · rintro rfl
    simp [replaceLevelAttr, LevelError, LevelDebug, LevelInfo, LevelWarn]
  · rintro l rfl h1 h2 h3 h4
    simp [replaceLevelAttr, h1, h2, h3, h4]
  · intro h
    cases v with
    | level l => exact absurd rfl (h l)
    | str s => rfl
    | obj c => rfl
  · cases v with
    | str s => exact ⟨DefaultSeverity, rfl, by simp⟩
    | obj c => exact ⟨DefaultSeverity, rfl, by simp⟩
    | level l =>
      by_cases h1 : l = LevelDebug
      · subst h1; exact ⟨DebugSeverity, by simp [replaceLevelAttr, severityDebug], by simp⟩
      by_cases h2 : l = LevelInfo
      · subst h2
        exact ⟨InfoSeverity,
          by simp [replaceLevelAttr, LevelInfo, LevelDebug, severityInfo],
          by simp⟩
      by_cases h3 : l = LevelWarn
      · subst h3
        exact ⟨WarningSeverity,
          by simp [replaceLevelAttr, LevelWarn, LevelDebug, LevelInfo,
            severityWarn], by simp⟩
      by_cases h4 : l = LevelError
      · subst h4
        exact ⟨ErrorSeverity,
          by simp [replaceLevelAttr, LevelError, LevelDebug, LevelInfo,
            LevelWarn, severityError], by simp⟩
      exact ⟨DefaultSeverity,
        by simp [replaceLevelAttr, h1, h2, h3, h4, severityDefault], by simp⟩

/-- Witness for C3: the DEBUG level maps to the DEBUG severity. -/
theorem replaceLevelAttr_severity_table_witness :
    replaceLevelAttr ⟨"level", .level (-4)⟩ = severityDebug :=
  (replaceLevelAttr_severity_table ⟨"level", .level (-4)⟩).1 rfl

/-- C6: at the empty group path, ReplaceAttr renames the default keys per
the translation table: the time key is returned with name and value
unchanged; the level key is replaced by the "severity" key whose value is
the severity string computed by replaceLevelAttr; the message key is
renamed to "message" with its value preserved; the source key is renamed
to "logging.googleapis.com/sourceLocation" with its value preserved. -/
theorem ReplaceAttr_top_level_table (a : Attr) :
    (a.key = slogTimeKey → ReplaceAttr [] a = a) ∧
    (a.key = slogLevelKey → ReplaceAttr [] a = replaceLevelAttr a ∧
      (ReplaceAttr [] a).key = SeverityKey ∧
      ∃ s, (ReplaceAttr [] a).value = .str s) ∧
    (a.key = slogMessageKey → ReplaceAttr [] a = ⟨MessageKey, a.value⟩) ∧
    (a.key = slogSourceKey → ReplaceAttr [] a = ⟨SourceLocationKey, a.value⟩)
    := by
  obtain ⟨k, v⟩ := a
  refine ⟨?_, ?_, ?_, ?_⟩
  · rintro rfl; simp [ReplaceAttr, slogTimeKey, slogLevelKey, slogSourceKey,
      slogMessageKey]
  · rintro rfl
    have hr : ReplaceAttr [] ⟨slogLevelKey, v⟩ = replaceLevelAttr ⟨slogLevelKey, v⟩ := by
      simp [ReplaceAttr]
    refine ⟨hr, ?_, ?_⟩
    · rw [hr]
      obtain ⟨s, hs, -⟩ :=
        (replaceLevelAttr_severity_table ⟨slogLevelKey, v⟩).2.2.2.2.2.2
      rw [hs]; rfl
    · obtain ⟨s, hs, -⟩ :=
        (replaceLevelAttr_severity_table ⟨slogLevelKey, v⟩).2.2.2.2.2.2
      exact ⟨s, by rw [hr, hs]; rfl⟩
  · rintro rfl; simp [ReplaceAttr, slogMessageKey, slogLevelKey, slogSourceKey]
  · rintro rfl; simp [ReplaceAttr, slogSourceKey, slogLevelKey]

/-- Witness for C6: the source key is renamed at the top level, the value
kept. -/
theorem ReplaceAttr_top_level_table_witness :
    ReplaceAttr [] ⟨"source", .str "test.go"⟩ =
      ⟨"logging.googleapis.com/sourceLocation", .str "test.go"⟩ :=
  (ReplaceAttr_top_level_table ⟨"source", .str "test.go"⟩).2.2.2 rfl

/-- C9: for every attribute and every non-empty group path, ReplaceAttr is
the identity — key renaming and severity substitution act only at the
empty (top-level) group path. -/
theorem ReplaceAttr_nested_identity (g : List String) (a : Attr)
    (h : g ≠ []) : ReplaceAttr g a = a := by
  unfold ReplaceAttr
  rw [if_pos]
  exact List.length_pos.mpr h

/-- Witness for C9: a level attribute nested under a group is untouched. -/
theorem ReplaceAttr_nested_identity_witness :
    ReplaceAttr ["nested"] ⟨"level", .level 0⟩ = ⟨"level", .level 0⟩ :=
  ReplaceAttr_nested_identity ["nested"] ⟨"level", .level 0⟩ (by simp)

/-- C2: assertErrorValue dispatches over the value's capabilities in
priority order: both stack trace and report location → the stack-trace
text with the provided location; only a stack trace → the stack-trace
text with nil location; only a report location → the value's own Error()
text with the provided location; any other error → its Error() text with
nil location; a plain string → the string itself with nil location. -/
theorem assertErrorValue_dispatch (caller : Caller) (c : Capabilities)
    (s : String) :
    (∀ e st rl, c.errMsg = some e → c.stackTrace = some st →
      c.reportLocation = some rl →
      assertErrorValue caller (.obj c) = (st, rl)) ∧
    (∀ e st, c.errMsg = some e → c.stackTrace = some st →
      c.reportLocation = none →
      assertErrorValue caller (.obj c) = (st, none)) ∧
    (∀ e rl, c.errMsg = some e → c.stackTrace = none →
      c.reportLocation = some rl →
      assertErrorValue caller (.obj c) = (e, rl)) ∧
    (∀ e, c.errMsg = some e → c.stackTrace = none →
      c.reportLocation = none →
      assertErrorValue caller (.obj c) = (e, none)) ∧
    assertErrorValue caller (.str s) = (s, none) := by
  obtain ⟨tn, em, stk, rloc, lv⟩ := c
  refine ⟨?_, ?_, ?_, ?_, rfl⟩ <;> (intros; subst_eqs; rfl)

/-- Witness for C2: a value with both capabilities yields the stack text
and the provided location. -/
theorem assertErrorValue_dispatch_witness :
    assertErrorValue sampleCaller
      (.obj ⟨"mockStackAndReport", some "mockStackAndReport", some "stack",
        some (some ⟨"file.go", 7, "fn"⟩), none⟩) =
      ("stack", some ⟨"file.go", 7, "fn"⟩) :=
  (assertErrorValue_dispatch sampleCaller _ "").1 "mockStackAndReport"
    "stack" (some ⟨"file.go", 7, "fn"⟩) rfl rfl rfl

/-- C5: for a value of unrecognized type — not a string, not an error (so
it satisfies neither the stack-trace nor the report-location interface) —
assertErrorValue returns the diagnostic string naming the unhandled type
together with a freshly captured report location (NewReportLocation with
skip 0, i.e. the frame of the extraction call site); extraction is total
on such values. -/
theorem assertErrorValue_unrecognized (caller : Caller) (v : AnyValue)
    (hs : ∀ s, v ≠ .str s)
    (he : ∀ c, v = .obj c → c.errMsg = none) :
    assertErrorValue caller v =
      (unhandledTypeMsg v.typeName, NewReportLocation caller 0) ∧
    (∀ f fn, caller 1 = some f → f.funcName = some fn →
      (assertErrorValue caller v).2 = some ⟨f.file, f.line, fn⟩) := by
  have h1 : assertErrorValue caller v =
      (unhandledTypeMsg v.typeName, NewReportLocation caller 0) := by
    cases v with
    | str s => exact absurd rfl (hs s)
    | level l => rfl
    | obj c =>
      have hem : c.errMsg = none := he c rfl
      obtain ⟨tn, em, stk, rloc, lv⟩ := c
      replace hem : em = none := hem
      subst hem
      rfl
  refine ⟨h1, ?_⟩
  intro f fn hf hfn
  rw [h1]
  simp [NewReportLocation, hf, hfn]

/-- Witness for C5: a slog.Level payload is unrecognized and yields the
diagnostic plus the captured frame. -/
theorem assertErrorValue_unrecognized_witness :
    assertErrorValue sampleCaller (.level 0) =
      (unhandledTypeMsg "slog.Level",
        some ⟨"errorreport.go", 42, "sloggcp.assertErrorValue"⟩) := by
  have h := (assertErrorValue_unrecognized sampleCaller (.level 0)
    (fun s hc => AnyValue.noConfusion hc)
    (fun c hc => AnyValue.noConfusion hc)).1
  rw [h]; rfl

/-- C8: error extraction is total and deterministic: every value yields
some message/location pair, the message being the stack text, the Error()
text, the string itself, or the unhandled-type diagnostic; and equal
inputs give equal results. -/
theorem assertErrorValue_total_deterministic (caller : Caller)
    (v : AnyValue) :
    (∃ m l, assertErrorValue caller v = (m, l) ∧
      ((∃ s, v = .str s ∧ m = s) ∨
       (∃ c st, v = .obj c ∧ c.errMsg.isSome = true ∧
         c.stackTrace = some st ∧ m = st) ∨
       (∃ c e, v = .obj c ∧ c.errMsg = some e ∧ c.stackTrace = none ∧
         m = e) ∨
       m = unhandledTypeMsg v.typeName)) ∧
    (∀ w, w = v → assertErrorValue caller w = assertErrorValue caller v)
    := by
  constructor
  · rcases v with s | l | ⟨tn, _ | e, _ | st, _ | rloc2, lv⟩ <;>
      refine ⟨_, _, rfl, ?_⟩
    · exact Or.inl ⟨s, rfl, rfl⟩
    · exact Or.inr (Or.inr (Or.inr rfl))
    · exact Or.inr (Or.inr (Or.inr rfl))
    · exact Or.inr (Or.inr (Or.inr rfl))
    · exact Or.inr (Or.inr (Or.inr rfl))
    · exact Or.inr (Or.inr (Or.inr rfl))
    · exact Or.inr (Or.inr (Or.inl ⟨_, e, rfl, rfl, rfl, rfl⟩))
    · exact Or.inr (Or.inr (Or.inl ⟨_, e, rfl, rfl, rfl, rfl⟩))
    · exact Or.inr (Or.inl ⟨_, st, rfl, rfl, rfl, rfl⟩)
    · exact Or.inr (Or.inl ⟨_, st, rfl, rfl, rfl, rfl⟩)
  · rintro w rfl; rfl

/-- Witness for C8: determinism at a concrete input. -/
theorem assertErrorValue_total_deterministic_witness :
    assertErrorValue sampleCaller (.str "boom") =
      assertErrorValue sampleCaller (.str "boom") :=
  (assertErrorValue_total_deterministic sampleCaller (.str "boom")).2
    (.str "boom") rfl

/-- Helper: the value of every key of the output document after
checkAndSetErrorReport ran on an error-keyed attribute. -/
theorem checkAndSetErrorReport_lookups (caller : Caller) (v : AnyValue)
    (out : DocMap) :
    (checkAndSetErrorReport caller ⟨ErrorKey, v⟩ out).1 = true ∧
    (∀ q, q ≠ ErrorReportTypeKey → q ≠ MessageKey → q ≠ ErrorKey →
      q ≠ ReportLocationKey →
      (checkAndSetErrorReport caller ⟨ErrorKey, v⟩ out).2 q = out q) ∧
    (checkAndSetErrorReport caller ⟨ErrorKey, v⟩ out).2 ErrorReportTypeKey =
      some (.str ErrorReportTypeValue) ∧
    (checkAndSetErrorReport caller ⟨ErrorKey, v⟩ out).2 MessageKey =
      some (.str (assertErrorValue caller v).1) ∧
    (checkAndSetErrorReport caller ⟨ErrorKey, v⟩ out).2 ReportLocationKey =
      (match (assertErrorValue caller v).2 with
        | some rl => some (.loc rl)
        | none => out ReportLocationKey) ∧
    (checkAndSetErrorReport caller ⟨ErrorKey, v⟩ out).2 ErrorKey =
      (match v with
        | .obj c =>
          match c.logValue with
          | some lv => some (.expanded (extractValue lv))
          | none =>
            match c.errMsg with
            | some e => some (.str e)
            | none => some (.goVal v)
        | _ => some (.goVal v)) := by
  refine ⟨by simp [checkAndSetErrorReport], ?_, ?_, ?_, ?_, ?_⟩
  · intro q h1 h2 h3 h4
    simp only [ErrorReportTypeKey, MessageKey, ErrorKey, ReportLocationKey]
      at h1 h2 h3 h4
    rcases hN : NewReportLocation caller 0 with _ | nl <;>
    rcases v with s | l | ⟨tn, _ | e, _ | st, _ | (_ | rloc3), _ | lvv⟩ <;>
      simp [checkAndSetErrorReport, assertErrorValue, mapSet, hN, h1, h2,
        h3, h4, ErrorKey, ErrorReportTypeKey, MessageKey, ReportLocationKey,
        AnyValue.typeName]
  · rcases hN : NewReportLocation caller 0 with _ | nl <;>
    rcases v with s | l | ⟨tn, _ | e, _ | st, _ | (_ | rloc3), _ | lvv⟩ <;>
      simp [checkAndSetErrorReport, assertErrorValue, mapSet, hN,
        ErrorKey, ErrorReportTypeKey, MessageKey, ReportLocationKey]
  · rcases hN : NewReportLocation caller 0 with _ | nl <;>
    rcases v with s | l | ⟨tn, _ | e, _ | st, _ | (_ | rloc3), _ | lvv⟩ <;>
      simp [checkAndSetErrorReport, assertErrorValue, mapSet, hN,
        ErrorKey, ErrorReportTypeKey, MessageKey, ReportLocationKey]
  · rcases hN : NewReportLocation caller 0 with _ | nl <;>
    rcases v with s | l | ⟨tn, _ | e, _ | st, _ | (_ | rloc3), _ | lvv⟩ <;>
      simp [checkAndSetErrorReport, assertErrorValue, mapSet, hN,
        ErrorKey, ErrorReportTypeKey, MessageKey, ReportLocationKey]
  · rcases hN : NewReportLocation caller 0 with _ | nl <;>
    rcases v with s | l | ⟨tn, _ | e, _ | st, _ | (_ | rloc3), _ | lvv⟩ <;>
      simp [checkAndSetErrorReport, assertErrorValue, mapSet, hN,
        ErrorKey, ErrorReportTypeKey, MessageKey, ReportLocationKey]

/-- C1: an attribute whose key is the well-known error key triggers the
error-report behavior: the type-marker key is set to the fixed
error-report type URI, the message key is overwritten with the message
derived by assertErrorValue (replacing any previously chosen log
message), the report-location key is added exactly when a non-nil
location was derived, and the function returns true. -/
theorem checkAndSetErrorReport_triggers (caller : Caller) (a : Attr)
    (out : DocMap) (h : a.key = ErrorKey) :
    (checkAndSetErrorReport caller a out).1 = true ∧
    (checkAndSetErrorReport caller a out).2 ErrorReportTypeKey =
      some (.str ErrorReportTypeValue) ∧
    (checkAndSetErrorReport caller a out).2 MessageKey =
      some (.str (assertErrorValue caller a.value).1) ∧
    (∀ rl, (assertErrorValue caller a.value).2 = some rl →
      (checkAndSetErrorReport caller a out).2 ReportLocationKey =
        some (.loc rl)) ∧
    ((assertErrorValue caller a.value).2 = none →
      (checkAndSetErrorReport caller a out).2 ReportLocationKey =
        out ReportLocationKey) := by
  obtain ⟨k, v⟩ := a
  replace h : k = ErrorKey := h
  subst h
  obtain ⟨p1, -, p3, p4, p5, -⟩ := checkAndSetErrorReport_lookups caller v out
  refine ⟨p1, p3, p4, ?_, ?_⟩
  · intro rl hrl; rw [p5, hrl]
  · intro hnone; rw [p5, hnone]

/-- Witness for C1: a plain-string error triggers the report, overrides
the message, and adds no report location. -/
theorem checkAndSetErrorReport_triggers_witness :
    (checkAndSetErrorReport sampleCaller ⟨"error", .str "boom"⟩
      emptyDoc).1 = true ∧
    (checkAndSetErrorReport sampleCaller ⟨"error", .str "boom"⟩
      emptyDoc).2 "message" = some (.str "boom") ∧
    (checkAndSetErrorReport sampleCaller ⟨"error", .str "boom"⟩
      emptyDoc).2 "reportLocation" = none := by
  obtain ⟨p1, -, p3, -, p5⟩ := checkAndSetErrorReport_triggers sampleCaller
    ⟨"error", .str "boom"⟩ emptyDoc rfl
  exact ⟨p1, p3, p5 rfl⟩

/-- C4: when the error report triggers, the value stored under the error
key is the structured expansion of LogValue() when the value is a
slog.LogValuer (this takes priority over the error case), else its
Error() text when it is an error, else the value itself verbatim. -/
theorem checkAndSetErrorReport_stored_error (caller : Caller) (a : Attr)
    (out : DocMap) (h : a.key = ErrorKey) :
    (∀ c lv, a.value = .obj c → c.logValue = some lv →
      (checkAndSetErrorReport caller a out).2 ErrorKey =
        some (.expanded (extractValue lv))) ∧
    (∀ c e, a.value = .obj c → c.logValue = none → c.errMsg = some e →
      (checkAndSetErrorReport caller a out).2 ErrorKey = some (.str e)) ∧
    (∀ c, a.value = .obj c → c.logValue = none → c.errMsg = none →
      (checkAndSetErrorReport caller a out).2 ErrorKey =
        some (.goVal a.value)) ∧
    ((∀ c, a.value ≠ .obj c) →
      (checkAndSetErrorReport caller a out).2 ErrorKey =
        some (.goVal a.value)) := by
  obtain ⟨k, v⟩ := a
  replace h : k = ErrorKey := h
  subst h
  obtain ⟨-, -, -, -, -, p6⟩ := checkAndSetErrorReport_lookups caller v out
  refine ⟨?_, ?_, ?_, ?_⟩
  · rintro c lv rfl hlv; simp [p6, hlv]
  · rintro c e rfl hlv hem; simp [p6, hlv, hem]
  · rintro c rfl hlv hem; simp [p6, hlv, hem]
  · intro h2
    cases v with
    | obj c => exact absurd rfl (h2 c)
    | str s => simp [p6]
    | level l => simp [p6]

/-- Witness for C4: a LogValuer that is also an error stores its
structured expansion, not its Error() text. -/
theorem checkAndSetErrorReport_stored_error_witness :
    (checkAndSetErrorReport sampleCaller
      ⟨"error", .obj ⟨"sloggcp.fooType", some "foo failed", none, none,
        some (.group [("bar", .str "baz"), ("baz", .int 42)])⟩⟩
      emptyDoc).2 "error" =
      some (.expanded (.obj [("bar", .str "baz"), ("baz", .int 42)])) := by
  have h := (checkAndSetErrorReport_stored_error sampleCaller
    ⟨"error", .obj ⟨"sloggcp.fooType", some "foo failed", none, none,
      some (.group [("bar", .str "baz"), ("baz", .int 42)])⟩⟩
    emptyDoc rfl).1 _ _ rfl rfl
  simpa [ErrorKey, extractValue, extractFields] using h

/-- C10: for a non-error key checkAndSetErrorReport returns false and
leaves the map unchanged; for the error key it modifies at most the
type-marker, message, error and report-location keys, leaving every
other key untouched. -/
theorem checkAndSetErrorReport_frame (caller : Caller) (a : Attr)
    (out : DocMap) :
    (a.key ≠ ErrorKey → checkAndSetErrorReport caller a out = (false, out)) ∧
    (a.key = ErrorKey → ∀ k, k ≠ ErrorReportTypeKey → k ≠ MessageKey →
      k ≠ ErrorKey → k ≠ ReportLocationKey →
      (checkAndSetErrorReport caller a out).2 k = out k) := by
  constructor
  · intro h; simp [checkAndSetErrorReport, h]
  · intro h
    obtain ⟨k0, v⟩ := a
    replace h : k0 = ErrorKey := h
    subst h
    exact (checkAndSetErrorReport_lookups caller v out).2.1

/-- Witness for C10: a foo-keyed attribute is a no-op; with the error key
an unrelated key keeps its lookup. -/
theorem checkAndSetErrorReport_frame_witness :
    checkAndSetErrorReport sampleCaller ⟨"foo", .str "x"⟩ emptyDoc =
      (false, emptyDoc) ∧
    (checkAndSetErrorReport sampleCaller ⟨"error", .str "x"⟩ emptyDoc).2
      "other" = emptyDoc "other" :=
  ⟨(checkAndSetErrorReport_frame sampleCaller ⟨"foo", .str "x"⟩
      emptyDoc).1 (by simp [ErrorKey]),
   (checkAndSetErrorReport_frame sampleCaller ⟨"error", .str "x"⟩
      emptyDoc).2 rfl "other" (by simp [ErrorReportTypeKey])
      (by simp [MessageKey]) (by simp [ErrorKey])
      (by simp [ReportLocationKey])⟩

/-- C7: a log call whose level is below the configured minimum (INFO when
unspecified) makes the compiler yield skip: no document is produced and
the encoder/sink receives zero bytes. -/
theorem compile_level_gate (minLevel : Option Int) (level : Int)
    (build : DocMap) (encode : DocMap → List Nat)
    (h : level < minLevel.getD LevelInfo) :
    compile minLevel level build = .skip ∧
    sinkBytes encode (compile minLevel level build) = [] := by
  have hc : compile minLevel level build = .skip := by simp [compile, h]
  exact ⟨hc, by rw [hc]; rfl⟩

/-- Witness for C7: DEBUG is below the default threshold INFO. -/
theorem compile_level_gate_witness :
    compile none (-4) emptyDoc = .skip ∧
    sinkBytes (fun _ => [1]) (compile none (-4) emptyDoc) = [] :=
  compile_level_gate none (-4) emptyDoc (fun _ => [1]) (by decide)

end Sloggcp
